import Mathlib

/-!
Verification of the conformer generation and pruning engine of AutoMolChem.

The development shallowly embeds the pure algorithmic content of
`src/core/generate_conformers.py` (class `ConformerGenerator`, methods
`prune_conformers`, `minimize_conformers`, `get_conformer_energies`, and the
module function `infer_charge_and_spin`) and of its near-identical copy
`src/pipeline/generate_conformers/generate_single_conformer.py`.

Python floats that are either a finite value or the `float('inf')` sentinel
are embedded as `WithTop ℚ` (`⊤` is the sentinel).  The external RDKit force
field library is embedded as an explicit environment (`FFEnv`) recording, per
conformer and per force-field choice (primary vs fallback), whether a force
field object could be built, the result code of `Minimize()`, the value or
exception of `CalcEnergy()`, and the minimized geometry.  `np.argsort` is
embedded as an ascending sort on indices (`List.insertionSort`); numpy does
not guarantee any particular tie order for its default sort kind, so no
conclusion below relies on the tie order of this model.
-/

namespace AutoMolChem

open scoped List

/-- Extended value: a finite rational or the positive-infinity sentinel `⊤`
(embedding of a Python float that is either finite or `float('inf')`). -/
abbrev Energy := WithTop ℚ

/-- Embedding of the constructor state of `ConformerGenerator.__init__`:
the configuration fields that the pruning and minimization code reads. -/
structure ConformerGenerator where
  max_conformers : Nat
  rmsd_threshold : ℚ
  force_field : String
  fallback_force_field : String
  pool_multiplier : Nat

/-- Outcome of `minimize_conformers` for one candidate: which force field
produced the geometry that the candidate ends up carrying. -/
inductive MinStatus where
  | minimizedPrimary
  | minimizedFallback
  | unminimized
deriving DecidableEq

/-- Environment abstracting the external RDKit force-field library.  The
first `Bool` argument is the `force_fallback` flag of
`get_molecule_force_field` (`false` selects the primary force field), the
`Nat` argument is the conformer id.  `available b i` says whether
`get_molecule_force_field` returns a force field object (not `None`);
`minResult b i` is the return code of `ff.Minimize()` (`none` models a raised
exception); `calcEnergy b i` is the value of `ff.CalcEnergy()` (`none` models
a raised exception); `minGeom b i` is the geometry after minimization under
that force field. -/
structure FFEnv (α : Type) where
  available : Bool → Nat → Bool
  minResult : Bool → Nat → Option Int
  calcEnergy : Bool → Nat → Option ℚ
  minGeom : Bool → Nat → α

/-- An atom of a molecular graph: element symbol, formal charge, and number
of radical electrons (the fields read by `infer_charge_and_spin`). -/
structure Atom where
  symbol : String
  formalCharge : Int
  numRadicalElectrons : Nat

/-- A sanitized molecular graph as a list of atoms. -/
structure Mol where
  atoms : List Atom

/-- Water with explicit hydrogens: charge-neutral, no radical electrons. -/
def water : Mol :=
  ⟨[⟨"O", 0, 0⟩, ⟨"H", 0, 0⟩, ⟨"H", 0, 0⟩]⟩

namespace Core

/-- Value of `energies[i]` as read by `np.argsort` (out-of-range reads do not
occur in the source; they default to the `⊤` sentinel here). -/
def keyE (energies : List Energy) (i : Nat) : Energy := energies.getD i ⊤

/-- Comparison used to argsort the energy array: index `i` sorts no later
than index `j` when its energy is no larger. -/
def keyLE (energies : List Energy) (i j : Nat) : Prop :=
  keyE energies i ≤ keyE energies j

instance (energies : List Energy) : DecidableRel (keyLE energies) := fun i j =>
  inferInstanceAs (Decidable (keyE energies i ≤ keyE energies j))

instance (energies : List Energy) : IsTotal Nat (keyLE energies) :=
  ⟨fun i j => le_total (keyE energies i) (keyE energies j)⟩

instance (energies : List Energy) : IsTrans Nat (keyLE energies) :=
  ⟨fun _ _ _ h h' => le_trans h h'⟩

/-- Embedding of `sort = np.argsort(energies)` in
`src/core/generate_conformers.py:254`: the list of indices `0..n-1` sorted
ascending by energy value.  The order of ties is implementation-defined in
numpy's default sort kind; this model realizes one admissible tie order (an
insertion sort), and no theorem below depends on which one. -/
def argsortE (energies : List Energy) : List Nat :=
  List.insertionSort (keyLE energies) (List.range energies.length)

/-- One iteration of the greedy loop of `prune_conformers`
(`src/core/generate_conformers.py:261-275`) on the state `(keep, discard)`,
processing candidate index `i`. -/
def prune_step (g : ConformerGenerator) (rmsd : Nat → Nat → Energy)
    (s : List Nat × List Nat) (i : Nat) : List Nat × List Nat :=
  if s.1.length = 0 then (s.1 ++ [i], s.2)
  else if g.max_conformers ≤ s.1.length then (s.1, s.2 ++ [i])
  else if s.1.all fun j => decide ((g.rmsd_threshold : Energy) ≤ rmsd i j) then
    (s.1 ++ [i], s.2)
  else (s.1, s.2 ++ [i])

/-- The greedy selection loop of `prune_conformers` run over the sorted index
order, starting from empty `keep` and `discard` lists. -/
def prune_select (g : ConformerGenerator) (rmsd : Nat → Nat → Energy)
    (sorted : List Nat) : List Nat × List Nat :=
  sorted.foldl (prune_step g rmsd) ([], [])

/-- Embedding of `ConformerGenerator.prune_conformers`
(`src/core/generate_conformers.py:232-283`).  The conformer pool is the list
of conformers of the molecule, `energies` the array returned by
`get_conformer_energies`, `rmsd` the matrix returned by `get_conformer_rmsd`.
Returns the conformer pool of the returned molecule. -/
def prune_conformers (g : ConformerGenerator) (pool : List α)
    (energies : List Energy) (rmsd : Nat → Nat → Energy) : List α :=
  if g.rmsd_threshold < 0 ∨ pool.length ≤ 1 then pool
  else if energies.all fun e => decide (e = ⊤) then pool
  else
    let sort := if energies.any fun e => decide (e ≠ ⊤) then argsortE energies
      else List.range energies.length
    let keep := (prune_select g rmsd sort).1
    keep.filterMap fun i => pool[i]?

/-- Which force field ends up producing the geometry of conformer `i` in
`ConformerGenerator.minimize_conformers`
(`src/core/generate_conformers.py:123-161`): the primary force field is tried
first; on failure (no force field object, an exception, or a non-zero return
code) the fallback force field is tried, unless it coincides with the
primary; if both fail the embedded geometry is kept unminimized. -/
def minimize_status (g : ConformerGenerator) (env : FFEnv α) (i : Nat) :
    MinStatus :=
  if env.available false i = true ∧ env.minResult false i = some 0 then
    .minimizedPrimary
  else if g.fallback_force_field ≠ g.force_field ∧
      env.available true i = true ∧ env.minResult true i = some 0 then
    .minimizedFallback
  else .unminimized

/-- Embedding of `ConformerGenerator.minimize_conformers`
(`src/core/generate_conformers.py:123-161`) acting on the conformer pool:
each conformer of the molecule is replaced in place by its minimized
geometry, or left as the embedded geometry when both force fields fail.
No conformer is ever added or removed. -/
def minimize_conformers (g : ConformerGenerator) (env : FFEnv α)
    (pool : List α) : List α :=
  pool.enum.map fun gi =>
    match minimize_status g env gi.1 with
    | .minimizedPrimary => env.minGeom false gi.1
    | .minimizedFallback => env.minGeom true gi.1
    | .unminimized => gi.2

/-- Embedding of `ConformerGenerator.get_conformer_energies`
(`src/core/generate_conformers.py:285-298`) for a molecule with `n`
conformers: for each conformer it builds a force field via
`get_molecule_force_field(mol, conf_id=...)` — with `force_fallback` left at
its default `False`, hence always the primary force field — and evaluates
`CalcEnergy()`, recording the `⊤` sentinel when no force field is available
or evaluation raises. -/
def get_conformer_energies (env : FFEnv α) (n : Nat) : List Energy :=
  (List.range n).map fun i =>
    if env.available false i then
      match env.calcEnergy false i with
      | some e => (e : Energy)
      | none => ⊤
    else ⊤

/-- The force-field choice that produced the geometry of conformer `i`:
the fallback field exactly when the candidate was minimized by the fallback,
the primary field when it was minimized by the primary or is unminimized. -/
def ff_of_status : MinStatus → Bool
  | .minimizedFallback => true
  | _ => false

/-- Specification-side energy evaluator, stated from the words of spec §4.4:
computes the potential energy of each candidate using whichever force field
actually produced its minimized geometry, and the primary force field when
the candidate is unminimized; on any evaluation failure the energy is the
`⊤` sentinel.  To be compared with `get_conformer_energies`, which is the
embedding of the source. -/
def get_conformer_energies_spec (g : ConformerGenerator) (env : FFEnv α)
    (n : Nat) : List Energy :=
  (List.range n).map fun i =>
    let b := ff_of_status (minimize_status g env i)
    if env.available b i then
      match env.calcEnergy b i with
      | some e => (e : Energy)
      | none => ⊤
    else ⊤

/-- Embedding of the module function `infer_charge_and_spin`
(`src/core/generate_conformers.py:338-351`): total charge is the sum of the
formal atomic charges, and spin multiplicity is the total number of radical
electrons plus one. -/
def infer_charge_and_spin (mol : Mol) : Int × Int :=
  let charge : Int := (mol.atoms.map fun a => a.formalCharge).sum
  let num_radicals : Nat :=
    mol.atoms.foldl (fun acc a => acc + a.numRadicalElectrons) 0
  (charge, (num_radicals : Int) + 1)

end Core

namespace Pipeline

/-- Value of `energies[i]` in the pipeline copy of the generator. -/
def keyE (energies : List Energy) (i : Nat) : Energy := energies.getD i ⊤

/-- Argsort comparison of the pipeline copy of the generator. -/
def keyLE (energies : List Energy) (i j : Nat) : Prop :=
  keyE energies i ≤ keyE energies j

instance (energies : List Energy) : DecidableRel (keyLE energies) := fun i j =>
  inferInstanceAs (Decidable (keyE energies i ≤ keyE energies j))

/-- Embedding of `sort = np.argsort(energies)` in
`src/pipeline/generate_conformers/generate_single_conformer.py:271`, with
the same admissible-tie-order modelling as `Core.argsortE`. -/
def argsortE (energies : List Energy) : List Nat :=
  List.insertionSort (keyLE energies) (List.range energies.length)

/-- One iteration of the greedy loop of `prune_conformers` in
`src/pipeline/generate_conformers/generate_single_conformer.py:278-292`. -/
def prune_step (g : ConformerGenerator) (rmsd : Nat → Nat → Energy)
    (s : List Nat × List Nat) (i : Nat) : List Nat × List Nat :=
  if s.1.length = 0 then (s.1 ++ [i], s.2)
  else if g.max_conformers ≤ s.1.length then (s.1, s.2 ++ [i])
  else if s.1.all fun j => decide ((g.rmsd_threshold : Energy) ≤ rmsd i j) then
    (s.1 ++ [i], s.2)
  else (s.1, s.2 ++ [i])

/-- The greedy selection loop of the pipeline copy, from empty state. -/
def prune_select (g : ConformerGenerator) (rmsd : Nat → Nat → Energy)
    (sorted : List Nat) : List Nat × List Nat :=
  sorted.foldl (prune_step g rmsd) ([], [])

/-- Embedding of `ConformerGenerator.prune_conformers` in
`src/pipeline/generate_conformers/generate_single_conformer.py:249-300`. -/
def prune_conformers (g : ConformerGenerator) (pool : List α)
    (energies : List Energy) (rmsd : Nat → Nat → Energy) : List α :=
  if g.rmsd_threshold < 0 ∨ pool.length ≤ 1 then pool
  else if energies.all fun e => decide (e = ⊤) then pool
  else
    let sort := if energies.any fun e => decide (e ≠ ⊤) then argsortE energies
      else List.range energies.length
    let keep := (prune_select g rmsd sort).1
    keep.filterMap fun i => pool[i]?

end Pipeline

/-- A configuration with the default constructor arguments of
`ConformerGenerator.__init__` except `max_conformers = 2`. -/
def gDefault : ConformerGenerator :=
  ⟨2, 1/2, "uff", "mmff94", 5⟩

/-- A force-field environment in which the single conformer `0` fails to
converge under the primary force field (`Minimize()` returns 1) but is
minimized successfully by the fallback force field, and the two force fields
report different energies (10 for the primary, 20 for the fallback). -/
def envFallbackMin : FFEnv Unit where
  available := fun _ _ => true
  minResult := fun b _ => if b then some 0 else some 1
  calcEnergy := fun b _ => if b then some 20 else some 10
  minGeom := fun _ _ => ()

/-- A copy of `envFallbackMin` whose fallback force field reports a different
energy and never minimizes: it agrees with `envFallbackMin` on everything the
primary force field does. -/
def envFallbackOther : FFEnv Unit where
  available := fun _ _ => true
  minResult := fun b _ => if b then none else some 1
  calcEnergy := fun b _ => if b then some 99 else some 10
  minGeom := fun _ _ => ()

/-- A configuration whose fallback force field coincides with the primary
one (so the fallback is skipped) and whose threshold is the integer 1. -/
def gSameFF : ConformerGenerator :=
  ⟨1, 1, "uff", "uff", 5⟩

/-- An environment in which every minimization attempt fails to converge
(`Minimize()` returns 1) while energies evaluate fine. -/
def envNoConverge : FFEnv Nat where
  available := fun _ _ => true
  minResult := fun _ _ => some 1
  calcEnergy := fun _ _ => some 0
  minGeom := fun _ i => 100 + i

/-- A demonstration configuration: `max_conformers = 2`, threshold 1. -/
def gDemo : ConformerGenerator :=
  ⟨2, 1, "uff", "mmff94", 5⟩

/-- A demonstration RMSD matrix: distance 0 on the diagonal, 2 off it. -/
def rmsdDemo : Nat → Nat → Energy :=
  fun i j => if i = j then 0 else 2

namespace Core

theorem prune_step_keep_cases (g : ConformerGenerator) (rmsd : Nat → Nat → Energy)
    (s : List Nat × List Nat) (i : Nat) :
    (prune_step g rmsd s i).1 = s.1 ∨ (prune_step g rmsd s i).1 = s.1 ++ [i] := by
  unfold prune_step
  split_ifs <;> simp

theorem foldl_keep_sublist (g : ConformerGenerator) (rmsd : Nat → Nat → Energy) :
    ∀ (l : List Nat) (s : List Nat × List Nat),
      (List.foldl (prune_step g rmsd) s l).1 <+ s.1 ++ l := by
  intro l
  induction l with
  | nil => intro s; simp
  | cons i l ih =>
    intro s
    rw [List.foldl_cons]
    rcases prune_step_keep_cases g rmsd s i with h | h
    · refine (ih _).trans ?_
      rw [h]
      exact (List.append_sublist_append_left _).mpr (List.sublist_cons_self i l)
    · have hsub := ih (prune_step g rmsd s i)
      rw [h, List.append_assoc] at hsub
      exact hsub

theorem foldl_keep_length_le (g : ConformerGenerator) (rmsd : Nat → Nat → Energy) :
    ∀ (l : List Nat) (s : List Nat × List Nat),
      s.1.length ≤ max 1 g.max_conformers →
      (List.foldl (prune_step g rmsd) s l).1.length ≤ max 1 g.max_conformers := by
  intro l
  induction l with
  | nil => intro s hs; simpa using hs
  | cons i l ih =>
    intro s hs
    rw [List.foldl_cons]
    apply ih
    unfold prune_step
    split_ifs with h1 h2 h3
    · have h4 := le_max_left 1 g.max_conformers
      simp only [List.length_append, List.length_cons, List.length_nil]
      omega
    · exact hs
    · have h4 := le_max_right 1 g.max_conformers
      simp only [List.length_append, List.length_cons, List.length_nil]
      omega
    · exact hs

theorem foldl_keep_pairwise (g : ConformerGenerator) (rmsd : Nat → Nat → Energy) :
    ∀ (l : List Nat) (s : List Nat × List Nat),
      s.1.Pairwise (fun j i => (g.rmsd_threshold : Energy) ≤ rmsd i j) →
      (List.foldl (prune_step g rmsd) s l).1.Pairwise
        (fun j i => (g.rmsd_threshold : Energy) ≤ rmsd i j) := by
  intro l
  induction l with
  | nil => intro s hs; simpa using hs
  | cons i l ih =>
    intro s hs
    rw [List.foldl_cons]
    apply ih
    unfold prune_step
    split_ifs with h1 h2 h3
    · have h4 : s.1 = [] := List.length_eq_zero.mp h1
      simp [h4]
    · exact hs
    · rw [List.pairwise_append]
      refine ⟨hs, List.pairwise_singleton .., fun j hj b hb => ?_⟩
      have hb2 : b = i := by simpa using hb
      subst hb2
      simp only [List.all_eq_true, decide_eq_true_eq] at h3
      exact h3 j hj
    · exact hs

theorem foldl_keep_head (g : ConformerGenerator) (rmsd : Nat → Nat → Energy) :
    ∀ (l : List Nat) (s : List Nat × List Nat), s.1 ≠ [] →
      (List.foldl (prune_step g rmsd) s l).1.head? = s.1.head? := by
  intro l
  induction l with
  | nil => intro s _; simp
  | cons i l ih =>
    intro s hs
    obtain ⟨a, t, ha⟩ := List.exists_cons_of_ne_nil hs
    rw [List.foldl_cons]
    rcases prune_step_keep_cases g rmsd s i with h | h
    · rw [ih _ (by rw [h]; exact hs), h]
    · rw [ih _ (by rw [h, ha]; simp), h, ha]
      rfl

theorem prune_select_sublist (g : ConformerGenerator) (rmsd : Nat → Nat → Energy)
    (l : List Nat) : (prune_select g rmsd l).1 <+ l := by
  simpa using foldl_keep_sublist g rmsd l ([], [])

theorem prune_select_length_le (g : ConformerGenerator) (rmsd : Nat → Nat → Energy)
    (l : List Nat) : (prune_select g rmsd l).1.length ≤ max 1 g.max_conformers :=
  foldl_keep_length_le g rmsd l ([], []) (by simp)

theorem prune_select_pairwise (g : ConformerGenerator) (rmsd : Nat → Nat → Energy)
    (l : List Nat) : (prune_select g rmsd l).1.Pairwise
      (fun j i => (g.rmsd_threshold : Energy) ≤ rmsd i j) :=
  foldl_keep_pairwise g rmsd l ([], []) (by simp)

theorem prune_select_head (g : ConformerGenerator) (rmsd : Nat → Nat → Energy)
    (l : List Nat) (hl : l ≠ []) : (prune_select g rmsd l).1.head? = l.head? := by
  obtain ⟨i, t, rfl⟩ := List.exists_cons_of_ne_nil hl
  unfold prune_select
  rw [List.foldl_cons]
  have h0 : prune_step g rmsd ([], []) i = ([i], []) := by
    unfold prune_step
    simp
  rw [h0, foldl_keep_head g rmsd t ([i], []) (by simp)]
  rfl

theorem argsortE_perm (energies : List Energy) :
    argsortE energies ~ List.range energies.length :=
  List.perm_insertionSort _ _

theorem argsortE_pairwise (energies : List Energy) :
    (argsortE energies).Pairwise (keyLE energies) :=
  List.sorted_insertionSort _ _

theorem prune_conformers_greedy {α : Type} (g : ConformerGenerator) (pool : List α)
    (energies : List Energy) (rmsd : Nat → Nat → Energy)
    (h0 : 0 ≤ g.rmsd_threshold) (h2 : 2 ≤ pool.length)
    (h3 : ¬ ∀ e ∈ energies, e = ⊤) :
    prune_conformers g pool energies rmsd =
      ((prune_select g rmsd (argsortE energies)).1).filterMap fun i => pool[i]? := by
  have hc1 : ¬ (g.rmsd_threshold < 0 ∨ pool.length ≤ 1) := by
    push_neg
    exact ⟨h0, by omega⟩
  have hc2 : (energies.all fun e => decide (e = ⊤)) = false := by
    rw [Bool.eq_false_iff]
    intro hall
    simp only [List.all_eq_true, decide_eq_true_eq] at hall
    exact h3 hall
  have hc3 : (energies.any fun e => decide (e ≠ ⊤)) = true := by
    rw [List.any_eq_true]
    push_neg at h3
    obtain ⟨e, he, hne⟩ := h3
    exact ⟨e, he, by simpa using hne⟩
  unfold prune_conformers
  rw [if_neg hc1, hc2, hc3]
  simp

theorem prune_conformers_of_disabled {α : Type} (g : ConformerGenerator)
    (pool : List α) (energies : List Energy) (rmsd : Nat → Nat → Energy)
    (h : g.rmsd_threshold < 0 ∨ pool.length ≤ 1) :
    prune_conformers g pool energies rmsd = pool := by
  unfold prune_conformers
  rw [if_pos h]

theorem prune_conformers_of_all_top {α : Type} (g : ConformerGenerator)
    (pool : List α) (energies : List Energy) (rmsd : Nat → Nat → Energy)
    (h : ∀ e ∈ energies, e = ⊤) :
    prune_conformers g pool energies rmsd = pool := by
  unfold prune_conformers
  by_cases h1 : g.rmsd_threshold < 0 ∨ pool.length ≤ 1
  · rw [if_pos h1]
  · have h2 : (energies.all fun e => decide (e = ⊤)) = true :=
      List.all_eq_true.mpr fun x hx => by simpa using h x hx
    rw [if_neg h1, h2]
    simp

end Core

theorem foldl_add_eq_sum {α : Type} (f : α → Nat) :
    ∀ (l : List α) (n : Nat),
      l.foldl (fun acc a => acc + f a) n = n + (l.map f).sum := by
  intro l
  induction l with
  | nil => intro n; simp
  | cons a l ih =>
    intro n
    rw [List.foldl_cons, ih, List.map_cons, List.sum_cons]
    omega

theorem rmsdDemo_symm : ∀ i j, rmsdDemo i j = rmsdDemo j i := by
  intro i j
  unfold rmsdDemo
  by_cases h : i = j
  · simp [h]
  · rw [if_neg h, if_neg fun h2 => h h2.symm]

/-- C4: if `rmsd_threshold < 0` or the pool contains at most one candidate,
`prune_conformers` returns the entire pool unchanged (identity transform),
regardless of `max_conformers`. -/
theorem C4_prune_identity {α : Type} (g : ConformerGenerator)
    (pool : List α) (energies : List Energy) (rmsd : Nat → Nat → Energy)
    (h : g.rmsd_threshold < 0 ∨ pool.length ≤ 1) :
    Core.prune_conformers g pool energies rmsd = pool :=
  Core.prune_conformers_of_disabled g pool energies rmsd h

/-- Witness for C4 at a concrete input: threshold -1, a pool of three
candidates larger than `max_conformers = 1`, returned whole. -/
theorem C4_prune_identity_witness :
    ((ConformerGenerator.mk 1 (-1) "uff" "mmff94" 5).rmsd_threshold < 0 ∨
      ([5, 6, 7] : List Nat).length ≤ 1) ∧
    Core.prune_conformers ⟨1, -1, "uff", "mmff94", 5⟩ ([5, 6, 7] : List Nat)
      [(0:ℚ), (0:ℚ), (0:ℚ)] (fun _ _ => ((0:ℚ) : Energy)) = [5, 6, 7] :=
  ⟨Or.inl (by decide),
   C4_prune_identity _ _ _ _ (Or.inl (by decide))⟩

/-- C5: if every candidate energy is the positive-infinity sentinel (total
energy-evaluation failure), `prune_conformers` keeps the entire pool
unchanged. -/
theorem C5_prune_keeps_pool_when_all_energies_top {α : Type}
    (g : ConformerGenerator) (pool : List α) (energies : List Energy)
    (rmsd : Nat → Nat → Energy) (h : ∀ e ∈ energies, e = ⊤) :
    Core.prune_conformers g pool energies rmsd = pool :=
  Core.prune_conformers_of_all_top g pool energies rmsd h

/-- Witness for C5 at a concrete input: five candidates, all with sentinel
energies, a threshold that enables diversity filtering, and
`max_conformers = 1`; the whole pool is kept. -/
theorem C5_prune_keeps_pool_when_all_energies_top_witness :
    (∀ e ∈ ([⊤, ⊤, ⊤, ⊤, ⊤] : List Energy), e = ⊤) ∧
    Core.prune_conformers ⟨1, 1, "uff", "mmff94", 5⟩ ([1, 2, 3, 4, 5] : List Nat)
      [⊤, ⊤, ⊤, ⊤, ⊤] (fun _ _ => ((0:ℚ) : Energy)) = [1, 2, 3, 4, 5] :=
  ⟨by decide,
   C5_prune_keeps_pool_when_all_energies_top _ _ _ _ (by decide)⟩

/-- C9: the two copies of the diversity pruner are extensionally equal:
on the same configuration, pool, energies and RMSD matrix, the greedy
selection loop produces the same keep/discard lists and `prune_conformers`
the same output conformer set in `src/core/generate_conformers.py` and in
`src/pipeline/generate_conformers/generate_single_conformer.py`. -/
theorem C9_core_pipeline_pruners_equal {α : Type} :
    ∀ (g : ConformerGenerator) (pool : List α) (energies : List Energy)
      (rmsd : Nat → Nat → Energy) (sorted : List Nat),
      Core.prune_select g rmsd sorted = Pipeline.prune_select g rmsd sorted ∧
      Core.prune_conformers g pool energies rmsd =
        Pipeline.prune_conformers g pool energies rmsd :=
  fun _ _ _ _ _ => ⟨rfl, rfl⟩

/-- C8: `infer_charge_and_spin` returns the sum of the formal atomic charges
and the total radical-electron count plus one, for every molecular graph; on
water (neutral, radical-free) it returns charge 0 and spin multiplicity 1. -/
theorem C8_infer_charge_and_spin_correct :
    (∀ mol : Mol,
      Core.infer_charge_and_spin mol =
        ((mol.atoms.map fun a => a.formalCharge).sum,
          ((mol.atoms.map fun a => a.numRadicalElectrons).sum : Int) + 1)) ∧
    Core.infer_charge_and_spin water = (0, 1) := by
  constructor
  · intro mol
    simp [Core.infer_charge_and_spin, foldl_add_eq_sum, Function.comp]
    rfl
  · decide

/-- C6 counterexample: in an environment where the single conformer fails to
converge under the primary force field but is successfully minimized by the
fallback one, `get_conformer_energies` still evaluates its energy with the
primary force field (10) rather than the field that produced its geometry
(20), contradicting the claim. -/
theorem C6_counterexample :
    Core.minimize_status gDefault envFallbackMin 0 = .minimizedFallback ∧
    Core.get_conformer_energies envFallbackMin 1 = [((10:ℚ) : Energy)] ∧
    Core.get_conformer_energies_spec gDefault envFallbackMin 1 =
      [((20:ℚ) : Energy)] ∧
    Core.get_conformer_energies envFallbackMin 1 ≠
      Core.get_conformer_energies_spec gDefault envFallbackMin 1 :=
  ⟨by decide, by decide, by decide, by decide⟩

/-- C6 (amended): the energy evaluator always queries the primary force
field — its output depends only on the primary-field availability and energy
functions of the environment, never on which force field minimized a
candidate or on any fallback-field behaviour. -/
theorem C6_energies_depend_only_on_primary_field {α β : Type}
    (env : FFEnv α) (env2 : FFEnv β) (n : Nat)
    (hav : env.available false = env2.available false)
    (hen : env.calcEnergy false = env2.calcEnergy false) :
    Core.get_conformer_energies env n = Core.get_conformer_energies env2 n := by
  unfold Core.get_conformer_energies
  rw [hav, hen]

/-- Witness for the amended C6: two environments whose fallback force fields
behave differently (different energies, different convergence) but agree on
the primary field produce identical energy arrays. -/
theorem C6_energies_depend_only_on_primary_field_witness :
    envFallbackMin.available false = envFallbackOther.available false ∧
    envFallbackMin.calcEnergy false = envFallbackOther.calcEnergy false ∧
    Core.get_conformer_energies envFallbackMin 2 =
      Core.get_conformer_energies envFallbackOther 2 :=
  ⟨rfl, rfl, C6_energies_depend_only_on_primary_field _ _ 2 rfl rfl⟩

/-- C7: `minimize_conformers` never discards a candidate: the conformer pool
after minimization has exactly the same length as before, and a candidate on
which both the primary and the fallback force field fail keeps its embedded
geometry unchanged as a usable candidate. -/
theorem C7_minimize_never_discards {α : Type} (g : ConformerGenerator)
    (env : FFEnv α) (pool : List α) :
    (Core.minimize_conformers g env pool).length = pool.length ∧
    ∀ i, i < pool.length → Core.minimize_status g env i = .unminimized →
      (Core.minimize_conformers g env pool)[i]? = pool[i]? := by
  constructor
  · unfold Core.minimize_conformers
    simp [List.enum_eq_enumFrom]
  · intro i hi hstat
    unfold Core.minimize_conformers
    rw [List.enum_eq_enumFrom, List.getElem?_map, List.getElem?_enumFrom,
      List.getElem?_eq_getElem hi]
    simp [hstat]

/-- Witness for C7: a pool of one candidate whose minimization attempts all
fail to converge, under a configuration whose fallback field equals the
primary (so the fallback is skipped): the candidate survives unchanged. -/
theorem C7_minimize_never_discards_witness :
    (Core.minimize_conformers gSameFF envNoConverge [7]).length =
      ([7] : List Nat).length ∧
    0 < ([7] : List Nat).length ∧
    Core.minimize_status gSameFF envNoConverge 0 = .unminimized ∧
    (Core.minimize_conformers gSameFF envNoConverge [7])[0]? =
      ([7] : List Nat)[0]? :=
  ⟨(C7_minimize_never_discards gSameFF envNoConverge [7]).1,
   by decide, by decide,
   (C7_minimize_never_discards gSameFF envNoConverge [7]).2 0 (by decide)
     (by decide)⟩

/-- C2: with diversity filtering enabled and the greedy selection branch
running (threshold ≥ 0, at least two candidates, not all energies the
sentinel), the returned set is the pool restricted to the kept index list;
any two kept members beyond the first kept one are at pairwise RMSD distance
≥ rmsd_threshold (in both orientations of a symmetric matrix); and the first
member of the energy-sorted order is kept unconditionally. -/
theorem C2_diversity_invariant {α : Type} (g : ConformerGenerator)
    (pool : List α) (energies : List Energy) (rmsd : Nat → Nat → Energy)
    (h0 : 0 ≤ g.rmsd_threshold) (h2 : 2 ≤ pool.length)
    (h3 : ¬ ∀ e ∈ energies, e = ⊤)
    (hsym : ∀ i j, rmsd i j = rmsd j i) :
    Core.prune_conformers g pool energies rmsd =
      ((Core.prune_select g rmsd (Core.argsortE energies)).1).filterMap
        (fun i => pool[i]?) ∧
    (∀ p q : Fin ((Core.prune_select g rmsd (Core.argsortE energies)).1).length,
      1 ≤ (p : Nat) → p < q →
      (g.rmsd_threshold : Energy) ≤
        rmsd (((Core.prune_select g rmsd (Core.argsortE energies)).1).get q)
          (((Core.prune_select g rmsd (Core.argsortE energies)).1).get p) ∧
      (g.rmsd_threshold : Energy) ≤
        rmsd (((Core.prune_select g rmsd (Core.argsortE energies)).1).get p)
          (((Core.prune_select g rmsd (Core.argsortE energies)).1).get q)) ∧
    ((Core.prune_select g rmsd (Core.argsortE energies)).1).head? =
      (Core.argsortE energies).head? := by
  refine ⟨Core.prune_conformers_greedy g pool energies rmsd h0 h2 h3, ?_, ?_⟩
  · intro p q _ hpq
    have h1 := List.pairwise_iff_get.mp
      (Core.prune_select_pairwise g rmsd (Core.argsortE energies)) p q hpq
    refine ⟨h1, ?_⟩
    rw [hsym]
    exact h1
  · rcases eq_or_ne (Core.argsortE energies) [] with h | h
    · rw [h]
      rfl
    · exact Core.prune_select_head g rmsd _ h

/-- Witness for C2 at a concrete greedy run: pool [10, 20, 30], energies
[1, 0, 2], all off-diagonal distances 2 ≥ threshold 1. -/
theorem C2_diversity_invariant_witness :
    (0:ℚ) ≤ gDemo.rmsd_threshold ∧
    Core.prune_conformers gDemo ([10, 20, 30] : List Nat)
        [(1:ℚ), (0:ℚ), (2:ℚ)] rmsdDemo =
      ((Core.prune_select gDemo rmsdDemo
          (Core.argsortE [(1:ℚ), (0:ℚ), (2:ℚ)])).1).filterMap
        (fun i => ([10, 20, 30] : List Nat)[i]?) ∧
    ((Core.prune_select gDemo rmsdDemo
        (Core.argsortE [(1:ℚ), (0:ℚ), (2:ℚ)])).1).head? =
      (Core.argsortE [(1:ℚ), (0:ℚ), (2:ℚ)]).head? :=
  ⟨by decide,
   (C2_diversity_invariant gDemo ([10, 20, 30] : List Nat)
     [(1:ℚ), (0:ℚ), (2:ℚ)] rmsdDemo (by decide) (by decide) (by decide)
     rmsdDemo_symm).1,
   (C2_diversity_invariant gDemo ([10, 20, 30] : List Nat)
     [(1:ℚ), (0:ℚ), (2:ℚ)] rmsdDemo (by decide) (by decide) (by decide)
     rmsdDemo_symm).2.2⟩

/-- C1 counterexample: with rmsd_threshold = -1 (diversity filtering
disabled) a pool of two candidates is returned whole even though
max_conformers = 1, so the claimed bound |ConformerSet| ≤ max_conformers
fails on the identity branch. -/
theorem C1_counterexample :
    ¬ ((Core.prune_conformers ⟨1, -1, "uff", "mmff94", 5⟩ ([10, 20] : List Nat)
      [(0:ℚ), (0:ℚ)] (fun _ _ => ((0:ℚ) : Energy))).length ≤
      (ConformerGenerator.mk 1 (-1) "uff" "mmff94" 5).max_conformers) := by
  decide

/-- C1 (amended): the returned set never exceeds the pool size; and whenever
the greedy selection branch runs (threshold ≥ 0, at least two candidates,
some finite energy) with max_conformers ≥ 1, it also never exceeds
max_conformers.  In the identity branches the whole pool is returned
regardless of max_conformers. -/
theorem C1_size_bounds {α : Type} (g : ConformerGenerator) (pool : List α)
    (energies : List Energy) (rmsd : Nat → Nat → Energy)
    (hlen : energies.length = pool.length) :
    (Core.prune_conformers g pool energies rmsd).length ≤ pool.length ∧
    (0 ≤ g.rmsd_threshold → 2 ≤ pool.length → (¬ ∀ e ∈ energies, e = ⊤) →
      1 ≤ g.max_conformers →
      (Core.prune_conformers g pool energies rmsd).length ≤
        g.max_conformers) := by
  have hkeep : ∀ (_ : 0 ≤ g.rmsd_threshold) (_ : 2 ≤ pool.length)
      (_ : ¬ ∀ e ∈ energies, e = ⊤),
      (Core.prune_conformers g pool energies rmsd).length ≤
        max 1 g.max_conformers ∧
      (Core.prune_conformers g pool energies rmsd).length ≤ pool.length := by
    intro h0 h2 h3
    rw [Core.prune_conformers_greedy g pool energies rmsd h0 h2 h3]
    constructor
    · exact le_trans (List.length_filterMap_le _ _)
        (Core.prune_select_length_le g rmsd _)
    · refine le_trans (List.length_filterMap_le _ _) ?_
      have h4 := (Core.prune_select_sublist g rmsd
        (Core.argsortE energies)).length_le
      have h5 := (Core.argsortE_perm energies).length_eq
      rw [List.length_range] at h5
      omega
  constructor
  · by_cases h1 : g.rmsd_threshold < 0 ∨ pool.length ≤ 1
    · rw [Core.prune_conformers_of_disabled g pool energies rmsd h1]
    · by_cases h2 : ∀ e ∈ energies, e = ⊤
      · rw [Core.prune_conformers_of_all_top g pool energies rmsd h2]
      · push_neg at h1
        exact (hkeep h1.1 (by omega) h2).2
  · intro h0 h2 h3 h4
    have h5 := (hkeep h0 h2 h3).1
    rwa [max_eq_right h4] at h5

/-- Witness for the amended C1 at a concrete greedy run. -/
theorem C1_size_bounds_witness :
    ([(1:ℚ), (0:ℚ), (2:ℚ)] : List Energy).length =
      ([10, 20, 30] : List Nat).length ∧
    (Core.prune_conformers gDemo ([10, 20, 30] : List Nat)
      [(1:ℚ), (0:ℚ), (2:ℚ)] rmsdDemo).length ≤ ([10, 20, 30] : List Nat).length ∧
    (Core.prune_conformers gDemo ([10, 20, 30] : List Nat)
      [(1:ℚ), (0:ℚ), (2:ℚ)] rmsdDemo).length ≤ gDemo.max_conformers :=
  ⟨by decide,
   (C1_size_bounds gDemo ([10, 20, 30] : List Nat) [(1:ℚ), (0:ℚ), (2:ℚ)]
     rmsdDemo (by decide)).1,
   (C1_size_bounds gDemo ([10, 20, 30] : List Nat) [(1:ℚ), (0:ℚ), (2:ℚ)]
     rmsdDemo (by decide)).2 (by decide) (by decide) (by decide) (by decide)⟩

/-- C10 (implicit): a non-empty candidate pool always yields a non-empty
pruned set — the first candidate of the energy-sorted order is kept before
the max_conformers cap is checked, so even max_conformers = 0 keeps one. -/
theorem C10_nonempty_output {α : Type} (g : ConformerGenerator)
    (pool : List α) (energies : List Energy) (rmsd : Nat → Nat → Energy)
    (hlen : energies.length = pool.length) (hpool : pool ≠ []) :
    Core.prune_conformers g pool energies rmsd ≠ [] := by
  by_cases h1 : g.rmsd_threshold < 0 ∨ pool.length ≤ 1
  · rw [Core.prune_conformers_of_disabled g pool energies rmsd h1]
    exact hpool
  · by_cases h2 : ∀ e ∈ energies, e = ⊤
    · rw [Core.prune_conformers_of_all_top g pool energies rmsd h2]
      exact hpool
    · push_neg at h1
      rw [Core.prune_conformers_greedy g pool energies rmsd h1.1 (by omega) h2]
      have h5 := (Core.argsortE_perm energies).length_eq
      rw [List.length_range] at h5
      have hA : Core.argsortE energies ≠ [] := by
        intro hnil
        rw [hnil] at h5
        simp only [List.length_nil] at h5
        omega
      obtain ⟨a, t, hA2⟩ := List.exists_cons_of_ne_nil hA
      have hh2 : (Core.argsortE energies).head? = some a := by
        rw [hA2]
        rfl
      have hhead := Core.prune_select_head g rmsd _ hA
      rw [hh2] at hhead
      have hKne : (Core.prune_select g rmsd (Core.argsortE energies)).1 ≠ [] := by
        intro hnil
        rw [hnil] at hhead
        simp at hhead
      obtain ⟨b, u, hK⟩ := List.exists_cons_of_ne_nil hKne
      have hb : b = a := by
        rw [hK] at hhead
        simpa using hhead
      have hbmem : b ∈ Core.argsortE energies := by
        rw [hA2, hb]
        exact List.mem_cons_self a t
      have hblt : b < pool.length := by
        have h6 := (Core.argsortE_perm energies).mem_iff.mp hbmem
        rw [List.mem_range] at h6
        omega
      rw [hK, List.filterMap_cons]
      rw [List.getElem?_eq_getElem hblt]
      simp

/-- Witness for C10 at a concrete greedy run. -/
theorem C10_nonempty_output_witness :
    ([(1:ℚ), (0:ℚ), (2:ℚ)] : List Energy).length =
      ([10, 20, 30] : List Nat).length ∧
    ([10, 20, 30] : List Nat) ≠ [] ∧
    Core.prune_conformers gDemo ([10, 20, 30] : List Nat)
      [(1:ℚ), (0:ℚ), (2:ℚ)] rmsdDemo ≠ [] :=
  ⟨by decide, by decide,
   C10_nonempty_output gDemo ([10, 20, 30] : List Nat)
     [(1:ℚ), (0:ℚ), (2:ℚ)] rmsdDemo (by decide) (by decide)⟩

end AutoMolChem
